import Mathlib

/-!
Verification of the pyvalidation library (validators, operations, processors,
exceptions) against its natural-language specification, via a shallow
embedding of the Python source in Lean.

Modelling conventions:
* Python values are modelled by `PyVal`. Floats are modelled as exact
  rationals in lowest terms (every float literal appearing in the spec or
  the tests, such as 9.5, is exactly representable); equality between a
  float and an int is therefore exact, as it is in Python for these values.
* Python exceptions are modelled with `Except`. A raised exception carries
  only its message (`PyErr`), which is all the library ever inspects
  (`str(e)`).
* The library's own `ParsingError`/`ValidationError` hierarchy is modelled
  by `PErr` with an `ErrKind` tag; arbitrary other exceptions (TypeError,
  ValueError, user exceptions) are modelled by `PyExc.other`.
-/

namespace PyValidation

/-- Runtime types of the Python values in the model. `bool` is a subclass
of `int`, and every type is a subclass of `object`. -/
inductive PyType where
  | int
  | bool
  | str
  | float
  | noneType
  | object
  deriving DecidableEq, Repr

/-- The `__name__` of each modelled class, as used in error messages. -/
def PyType.name : PyType → String
  | .int => "int"
  | .bool => "bool"
  | .str => "str"
  | .float => "float"
  | .noneType => "NoneType"
  | .object => "object"

/-- Python's issubclass relation restricted to the modelled types:
reflexive, `bool` is a subclass of `int`, everything is a subclass of
`object`. -/
def PyType.isSubclass : PyType → PyType → Bool
  | _, .object => true
  | .bool, .int => true
  | a, b => a == b

/-- Python values. A float is kept as an exact fraction `num / den`
(`den > 0`, lowest terms by construction at every use site). -/
inductive PyVal where
  | int (n : Int)
  | bool (b : Bool)
  | str (s : String)
  | float (num : Int) (den : Nat)
  | none
  deriving DecidableEq, Repr

/-- Python's `type(v)`. -/
def PyVal.type : PyVal → PyType
  | .int _ => .int
  | .bool _ => .bool
  | .str _ => .str
  | .float _ _ => .float
  | .none => .noneType

/-- Whether an int `n` equals the float `num / den` under Python `==`. -/
def intEqFloat (n : Int) (num : Int) (den : Nat) : Bool :=
  num == n * den

/-- Python's `==` on the modelled values: numeric values compare across
types (`True == 1`, `1 == 1.0`), other cross-type comparisons are `False`. -/
def PyVal.pyEq : PyVal → PyVal → Bool
  | .int a, .int b => a == b
  | .int a, .bool b => a == (if b then 1 else 0)
  | .bool a, .int b => (if a then (1 : Int) else 0) == b
  | .bool a, .bool b => a == b
  | .int a, .float num den => intEqFloat a num den
  | .float num den, .int a => intEqFloat a num den
  | .bool a, .float num den => intEqFloat (if a then 1 else 0) num den
  | .float num den, .bool a => intEqFloat (if a then 1 else 0) num den
  | .float n1 d1, .float n2 d2 => n1 * d2 == n2 * d1
  | .str a, .str b => a == b
  | .none, .none => true
  | _, _ => false

/-- Python truthiness of the modelled values. -/
def PyVal.truthy : PyVal → Bool
  | .int n => n != 0
  | .bool b => b
  | .str s => s != ""
  | .float num _ => num != 0
  | .none => false

/-- Python's `str(v)` for the modelled values (floats are rendered as
`num/den`; no claim inspects a rendered float). -/
def PyVal.pyStr : PyVal → String
  | .int n => toString n
  | .bool b => if b then "True" else "False"
  | .str s => s
  | .float num den => toString num ++ "/" ++ toString den
  | .none => "None"

/-- A Python `range(start, stop, step)` object. -/
structure PyRange where
  start : Int
  stop : Int
  step : Int
  deriving DecidableEq, Repr

/-- Membership of an integer in a range, as computed by CPython's
`range.__contains__` fast path. -/
def PyRange.containsInt (r : PyRange) (n : Int) : Bool :=
  if r.step > 0 then
    decide (r.start ≤ n) && decide (n < r.stop) && ((n - r.start) % r.step == 0)
  else if r.step < 0 then
    decide (n ≤ r.start) && decide (r.stop < n) && ((n - r.start) % r.step == 0)
  else false

/-- Membership of an arbitrary value in a range. Ints and bools take the
fast path; any other value is compared against the elements with `==`
(a float is equal to some element iff it is integral and its integer part
is in the range; strings and None never equal an int). -/
def PyRange.containsVal (r : PyRange) (v : PyVal) : Bool :=
  match v with
  | .int n => r.containsInt n
  | .bool b => r.containsInt (if b then 1 else 0)
  | .float num den => den == 1 && r.containsInt num
  | _ => false

/-- Python's `repr` of a range, as interpolated into error messages. -/
def PyRange.reprStr (r : PyRange) : String :=
  if r.step == 1 then
    "range(" ++ toString r.start ++ ", " ++ toString r.stop ++ ")"
  else
    "range(" ++ toString r.start ++ ", " ++ toString r.stop ++ ", " ++ toString r.step ++ ")"

/-- A raised Python exception, reduced to the message the library reads
via `str(e)`. -/
structure PyErr where
  msg : String
  deriving DecidableEq, Repr

/-!
Validators (src/src/validators.py). The class hierarchy rooted at
`Validator` is embedded as one inductive with a constructor per concrete
class used by the claims: `TypeValidator`, `ValueValidator`,
`EmptyValidator`, `RangeValidator`, `UserValidator`, `ComposedValidator`.
A user-supplied predicate function is modelled as
`PyVal → Except PyErr PyVal` together with its `__qualname__` (used only
in error messages); `Exception` raised by the function is the `.error`
case. The regex and convenience subclasses are outside the claims and are
not embedded.
-/

inductive Validator where
  | typeValidator (types : List PyType) (check_subclasses check_bool_subclasses : Bool)
  | valueValidator (values : List PyVal) (match_types : Bool)
  | emptyValidator
  | rangeValidator (interval : PyRange) (match_types : Bool)
  | userValidator (func : PyVal → Except PyErr PyVal) (name : Option String)
  | composedValidator (validators : List Validator)

/-! `Validator.check`, per subclass. `TypeValidator.check` compares the
exact runtime type against the configured set when `check_subclasses` is
off or when the value is a `bool` and `check_bool_subclasses` is off, and
uses `isinstance` otherwise; `ValueValidator.check` looks for a `==`-equal
member (with identical runtime type when `match_types`);
`RangeValidator.check` tests range membership (and exact `int` type when
`match_types`); `UserValidator.check` calls the user function, letting any
exception propagate; `ComposedValidator.check` is a left-to-right
short-circuit disjunction over the member validators, coercing each
member's result to a truth value. The result is the Python value returned
by `check` (a `bool` for the built-in validators, anything for a user
function). -/

mutual

def Validator.check : Validator → PyVal → Except PyErr PyVal
  | .typeValidator types cs cb, arg =>
      let cls := arg.type
      .ok (.bool (if !cs || (!cb && cls == PyType.bool) then
                    types.contains cls
                  else
                    types.any (fun t => cls.isSubclass t)))
  | .valueValidator values mt, arg =>
      .ok (.bool (values.any (fun v => arg.pyEq v && (!mt || arg.type == v.type))))
  | .emptyValidator, _ => .ok (.bool true)
  | .rangeValidator r mt, arg =>
      .ok (.bool (r.containsVal arg && (!mt || arg.type == PyType.int)))
  | .userValidator f _, arg => f arg
  | .composedValidator vs, arg => checkAny vs arg

/-- The loop of `ComposedValidator.check`: return `True` at the first
member whose `check` result is truthy, `False` when all members were
falsy; a member's exception propagates. -/
def checkAny : List Validator → PyVal → Except PyErr PyVal
  | [], _ => .ok (.bool false)
  | v :: vs, arg =>
      match v.check arg with
      | .error e => .error e
      | .ok r => if r.truthy then .ok (.bool true) else checkAny vs arg

end

/-- The generic failure text of `UserValidator.error_message`:
`Expression {name} evaluated to False`, naming the wrapped function when
it has a `__qualname__`/`__name__`. -/
def userErrorMessage (name : Option String) : String :=
  "Expression" ++ (match name with | some s => " " ++ s | Option.none => "") ++
    " evaluated to False"

/-- `error_message`, per subclass. `EmptyValidator` and
`ComposedValidator` inherit the base class default (the empty string). -/
def Validator.error_message : Validator → PyVal → String
  | .typeValidator types _ _, arg =>
      "Type " ++ String.intercalate (" or ") (types.map PyType.name) ++
        " expected but got " ++ arg.type.name
  | .valueValidator values _, arg =>
      "Value " ++ String.intercalate (" or ") (values.map PyVal.pyStr) ++
        " expected but got " ++ arg.pyStr
  | .rangeValidator r _, arg =>
      "Value in " ++ r.reprStr ++ " expected but got " ++ arg.pyStr
  | .userValidator _ name, _ => userErrorMessage name
  | _, _ => ""

/-- `UserValidator.__call__`: runs `check` inside `try`; a raised
exception yields `(False, str(e))`, a falsy result yields
`(False, error_message(arg))`, a truthy result yields `(True, None)`. -/
def userCall (func : PyVal → Except PyErr PyVal) (name : Option String)
    (arg : PyVal) : Bool × Option String :=
  match func arg with
  | .error e => (false, some e.msg)
  | .ok r => if r.truthy then (true, Option.none) else (false, some (userErrorMessage name))

/-- `Validator.__call__`: `UserValidator` overrides it with the
exception-catching version; every other validator uses the base-class
version, which calls `check` (letting exceptions propagate) and pairs a
falsy result with `error_message(arg)`. -/
def Validator.call : Validator → PyVal → Except PyErr (Bool × Option String)
  | .userValidator f name, arg => .ok (userCall f name arg)
  | v, arg =>
      match v.check arg with
      | .error e => .error e
      | .ok r =>
        if r.truthy then .ok (true, Option.none)
        else .ok (false, some (v.error_message arg))

/-- Python's `frozenset` on a list of values: deduplication by `==`,
keeping the first occurrence of each equivalence class. -/
def pyInsert (acc : List PyVal) (v : PyVal) : List PyVal :=
  if acc.any (fun u => u.pyEq v) then acc else acc ++ [v]

def pyFrozenset (values : List PyVal) : List PyVal :=
  values.foldl pyInsert []

/-- `frozenset` on class objects (deduplication, first kept), used by
`TypeValidator.__init__` when merging. -/
def typeFrozenset (types : List PyType) : List PyType :=
  types.foldl (fun acc t => if acc.contains t then acc else acc ++ [t]) []

/-- Python's `sorted` on a list of ints (insertion sort; the sorted
result is what matters, the lists here are duplicate-free). -/
def insertSorted (n : Int) : List Int → List Int
  | [] => [n]
  | m :: ms => if n ≤ m then n :: m :: ms else m :: insertSorted n ms

def sortInts (l : List Int) : List Int := l.foldr insertSorted []

/-- Number of distinct elements, as `len(frozenset(...))` on ints. -/
def dedupInts (l : List Int) : List Int :=
  l.foldl (fun acc n => if acc.contains n then acc else acc ++ [n]) []

/-- `ValueValidator.simplify`: take the `frozenset` of the values; when
there are more than two values, all of exact type `int`, and the sorted
values are evenly spaced, return a `RangeValidator` over
`range(min, max+1, step)` — note the source constructs it with the
default `match_types=True`, ignoring the value validator's own
`match_types` flag; otherwise rebuild the `ValueValidator` from the
`frozenset` with the same `match_types`. -/
def valueSimplify (values : List PyVal) (mt : Bool) : Validator :=
  let vset := pyFrozenset values
  if vset.length > 2 && vset.all (fun v => v.type == PyType.int) then
    let ints := vset.filterMap (fun v => match v with
      | .int n => some n
      | _ => Option.none)
    let sorted := sortInts ints
    let diffs := List.zipWith (fun x y => x - y) sorted.tail sorted
    if (dedupInts diffs).length == 1 then
      .rangeValidator ⟨sorted.headD 0, sorted.getLastD 0 + 1, diffs.headD 0⟩ true
    else
      .valueValidator vset mt
  else
    .valueValidator vset mt

mutual

/-- Flattening performed by `ComposedValidator.__init__`/`add`/`extend`:
a member that is itself a `ComposedValidator` contributes its members
(recursively) instead of itself. -/
def flattenV : Validator → List Validator
  | .composedValidator items => flattenList items
  | v => [v]

def flattenList : List Validator → List Validator
  | [] => []
  | v :: vs => flattenV v ++ flattenList vs

end

/-- `ComposedValidator(items)`. -/
def mkComposed (items : List Validator) : Validator :=
  .composedValidator (flattenList items)

def isEmptyV : Validator → Bool
  | .emptyValidator => true
  | _ => false

def isValueV : Validator → Bool
  | .valueValidator _ _ => true
  | _ => false

def isTypeV : Validator → Bool
  | .typeValidator _ _ _ => true
  | _ => false

/-- One group of the `TypeValidator` merge in
`ComposedValidator.simplify`: concatenate the type tuples of the members
whose `(check_subclasses, check_bool_subclasses)` flags equal the given
pair, deduplicate (`frozenset`), and build a single `TypeValidator` when
non-empty. -/
def mergeTypeGroup (ts : List Validator) (cs cb : Bool) : List Validator :=
  let types := ts.foldl (fun acc v => match v with
    | .typeValidator tys c1 c2 => if c1 == cs && c2 == cb then acc ++ tys else acc
    | _ => acc) []
  let types := typeFrozenset types
  if types.isEmpty then [] else [.typeValidator types cs cb]

/-- The flag pairs are visited in the order of
`product((False, True), (False, True))`. -/
def mergeTypes (ts : List Validator) : List Validator :=
  mergeTypeGroup ts false false ++ mergeTypeGroup ts false true ++
    mergeTypeGroup ts true false ++ mergeTypeGroup ts true true

/-- One group of the `ValueValidator` merge: concatenate the value lists
of the members with the given `match_types` flag. -/
def mergeValueGroup (vs : List Validator) (mt : Bool) : List Validator :=
  let values := vs.foldl (fun acc v => match v with
    | .valueValidator vals m => if m == mt then acc ++ vals else acc
    | _ => acc) []
  if values.isEmpty then [] else [.valueValidator values mt]

def mergeValues (vs : List Validator) : List Validator :=
  mergeValueGroup vs false ++ mergeValueGroup vs true

/-- The body of `ComposedValidator.simplify` after the members have been
simplified: collapse to `EmptyValidator` if any member is one, merge the
`ValueValidator`s and `TypeValidator`s groupwise, and rebuild. -/
def composedSimplifyCore (vs : List Validator) : Validator :=
  if vs.any isEmptyV then .emptyValidator
  else
    let value_validators := vs.filter isValueV
    let type_validators := vs.filter isTypeV
    let other_validators := vs.filter (fun v => !isValueV v && !isTypeV v)
    let type_validators :=
      if type_validators.length > 1 then mergeTypes type_validators else type_validators
    let value_validators :=
      if value_validators.length > 1 then mergeValues value_validators else value_validators
    let final := value_validators ++ type_validators ++ other_validators
    match final with
    | [u] => u
    | _ => mkComposed final

mutual

/-- `Validator.simplify`, per subclass: `TypeValidator` collapses to
`EmptyValidator` when `check_subclasses` is set and `object` is among its
types; `ValueValidator` follows `valueSimplify`; a one-member
`ComposedValidator` simplifies to its member's simplification, a larger
one merges its simplified members; every other validator returns itself
(the base-class default). -/
def Validator.simplify : Validator → Validator
  | .typeValidator types cs cb =>
      if cs && types.contains PyType.object then .emptyValidator
      else .typeValidator types cs cb
  | .valueValidator values mt => valueSimplify values mt
  | .composedValidator [v] => v.simplify
  | .composedValidator items => composedSimplifyCore (simplifyList items)
  | v => v

def simplifyList : List Validator → List Validator
  | [] => []
  | v :: vs => Validator.simplify v :: simplifyList vs

end

/-!
Specifications (`Validator.from_spec`). The heterogeneous Python argument
is modelled as a tagged union whose cases mirror the dynamic checks of
`from_spec`, in source order: an already-built `Validator`; an instance
whose exact type is `object`; a class; a dict (only its keys matter); a
callable; a `range`; a list/tuple/set/frozenset of further specifications;
any other literal. Set members that are neither classes nor iterables are
representable here only when they are plain values (`.literal`), which
covers every use the claims make of collections.
-/

inductive Spec where
  | validator (v : Validator)
  | anyObject
  | cls (c : PyType)
  | dict (keys : List PyVal)
  | func (f : PyVal → Except PyErr PyVal) (name : Option String)
  | rangeSpec (r : PyRange)
  | collection (items : List Spec)
  | literal (v : PyVal)

/-- Python `inspect.isclass` on a specification element. -/
def Spec.isclass : Spec → Bool
  | .cls _ => true
  | _ => false

/-- `utils.iterable` on a specification element (an object defining
`__iter__`): dicts, collections, ranges, strings, and composed validators
(which define `__iter__`) are iterable. -/
def Spec.iterableB : Spec → Bool
  | .dict _ => true
  | .collection _ => true
  | .rangeSpec _ => true
  | .literal (.str _) => true
  | .validator (.composedValidator _) => true
  | _ => false

def Spec.asValue : Spec → Option PyVal
  | .literal v => some v
  | _ => Option.none

def valuesOfSpecs (items : List Spec) : List PyVal :=
  items.filterMap Spec.asValue

mutual

/-- `Validator.from_spec`, with the source's dispatch order: a `Validator`
is returned as-is; an `object` instance gives `EmptyValidator`; a class
gives a single-type `TypeValidator`; a dict gives a `ValueValidator` over
its keys; a callable gives a `UserValidator`; a `range` gives a
`RangeValidator`; a collection gives a `ComposedValidator` of the
recursively resolved elements when any element is a class or iterable,
and a `ValueValidator` over the elements otherwise; any other literal
gives a one-element `ValueValidator`. -/
def Validator.from_spec : Spec → Validator
  | .validator v => v
  | .anyObject => .emptyValidator
  | .cls c => .typeValidator [c] true false
  | .dict keys => .valueValidator keys true
  | .func f name => .userValidator f name
  | .rangeSpec r => .rangeValidator r true
  | .collection items =>
      if items.any Spec.isclass || items.any Spec.iterableB then
        mkComposed (fromSpecList items)
      else
        .valueValidator (valuesOfSpecs items) true
  | .literal v => .valueValidator [v] true

def fromSpecList : List Spec → List Validator
  | [] => []
  | s :: ss => Validator.from_spec s :: fromSpecList ss

end

/-!
Operation expressions (src/src/operations.py). `Operation` is the
expression AST: `Identity` (the placeholder), `Constant`, and
`BinaryOperation(op, g, h)`. The operator table is embedded for the
arithmetic operators the claims exercise; an operator application follows
Python semantics on ints/bools (strings concatenate under `+`) and raises
a `TypeError` otherwise. The `expr` string attribute, used only to
stringify diagnostics, is not part of the model. -/

inductive BinOp where
  | add
  | sub
  | mul
  deriving DecidableEq, Repr

/-- Numeric operand coercion: Python arithmetic treats `bool` as its
integer value. -/
def PyVal.asIntArith : PyVal → Option Int
  | .int n => some n
  | .bool b => some (if b then 1 else 0)
  | _ => Option.none

/-- Application of a binary operator from the table at the bottom of
operations.py (`operator.__add__` etc.). -/
def BinOp.apply : BinOp → PyVal → PyVal → Except PyErr PyVal
  | .add, .str a, .str b => .ok (.str (a ++ b))
  | op, a, b =>
    match a.asIntArith, b.asIntArith with
    | some x, some y =>
      match op with
      | .add => .ok (.int (x + y))
      | .sub => .ok (.int (x - y))
      | .mul => .ok (.int (x * y))
    | _, _ => .error ⟨"unsupported operand type(s)"⟩

/-- The expression AST built by the placeholder: `Identity` echoes the
input, `Constant k` ignores it, `BinaryOperation` combines two
sub-expressions with an operator. -/
inductive Operation where
  | identity
  | const (k : PyVal)
  | binary (op : BinOp) (g h : Operation)
  deriving Repr

/-- `Operation.__call__`: `Identity` returns `x`, `Constant` returns `k`,
`BinaryOperation` evaluates `g(x)`, then `h(x)`, then applies the
operator, propagating any exception. -/
def Operation.call : Operation → PyVal → Except PyErr PyVal
  | .identity, x => .ok x
  | .const k, _ => .ok k
  | .binary op g h, x => do
      let a ← g.call x
      let b ← h.call x
      op.apply a b

/-- An operand handed to an operator method: either a raw value (promoted
to `Constant` by `BinaryOperation.__init__`) or an already-built
`Operation`. -/
inductive Operand where
  | lit (v : PyVal)
  | expr (e : Operation)

def Operand.promote : Operand → Operation
  | .lit v => .const v
  | .expr e => e

/-- `BinaryOperation(op, g, h)` as constructed by the operator dunder
methods of `Operation`: the raw right operand is wrapped in `Constant`,
and an AST node is built; no operator is applied. -/
def Operation.mkBinary (op : BinOp) (g : Operation) (h : Operand) : Operation :=
  .binary op g h.promote

/-- `Operation.__mul__`. -/
def Operation.mulE (g : Operation) (h : Operand) : Operation :=
  Operation.mkBinary .mul g h

/-- `Operation.__add__`. -/
def Operation.addE (g : Operation) (h : Operand) : Operation :=
  Operation.mkBinary .add g h

/-!
Exceptions (src/exceptions.py) and processors (src/src/processors.py).
-/

/-- The two library error classes: `ValidationError` subclasses
`ParsingError`; both carry a 0-based parameter index, a description, and
an optional level, and differ only in their rendered message. -/
inductive ErrKind where
  | parsing
  | validation
  deriving DecidableEq, Repr

structure PErr where
  kind : ErrKind
  param : Nat
  description : String
  level : Option Nat
  deriving DecidableEq, Repr

/-- The `(at level {})` suffix of `ParsingError.__str__` /
`ValidationError.__str__`: rendered only when a level is attached, and
printed as `level + 1`. -/
def PErr.renderedLevelSuffix (e : PErr) : String :=
  match e.level with
  | some l => " (at level " ++ toString (l + 1) ++ ")"
  | Option.none => ""

/-- The level an error reports to the user, as printed by `__str__`
(`level + 1`); `none` when no level is attached. -/
def PErr.displayedLevel (e : PErr) : Option Nat :=
  e.level.map (fun l => l + 1)

/-- `ParsingError.__str__` / `ValidationError.__str__`. -/
def PErr.render (e : PErr) : String :=
  (match e.kind with
   | .parsing => "Error parsing argument at position "
   | .validation => "Invalid argument at position ") ++
    toString (e.param + 1) ++
    (if e.description != "" then ": " ++ e.description else "") ++
    e.renderedLevelSuffix

/-- An exception escaping a processor: either a library
`ParsingError`/`ValidationError` (`perr`), or any other Python exception
(`TypeError`/`ValueError` contract violations, exceptions raised by user
predicates), which the pipeline does not catch. -/
inductive PyExc where
  | perr (e : PErr)
  | other (msg : String)
  deriving Repr

/-- A positional argument flowing through the pipeline: either a plain
value or an `InputValueWrapper` with its `validate`/`parse` flags. -/
inductive PyArg where
  | plain (value : PyVal)
  | wrapped (value : PyVal) (validate : Bool) (parse : Bool)
  deriving DecidableEq, Repr

/-- The underlying value (`wrapped_value` for a wrapper). -/
def PyArg.val : PyArg → PyVal
  | .plain v => v
  | .wrapped v _ _ => v

/-- Whether validating stages examine this argument. -/
def PyArg.validateFlag : PyArg → Bool
  | .plain _ => true
  | .wrapped _ b _ => b

/-- Whether parsing stages transform this argument. -/
def PyArg.parseFlag : PyArg → Bool
  | .plain _ => true
  | .wrapped _ _ b => b

/-- `ValidateInput.validate`: walk validators, indices, and arguments in
lockstep; a wrapper with `validate=False` is skipped (its index is still
consumed); otherwise the validator is called on the underlying value, and
the first invalid result raises `ValidationError(index, error)` with no
level. An exception raised by a validator's `check` propagates as-is. -/
def validateArgs : List Validator → Nat → List PyArg → Except PyExc Unit
  | [], _, _ => .ok ()
  | _ :: _, _, [] => .ok ()
  | v :: vs, i, a :: rest =>
      if a.validateFlag = false then validateArgs vs (i + 1) rest
      else
        match v.call a.val with
        | .error e => .error (.other e.msg)
        | .ok (true, _) => validateArgs vs (i + 1) rest
        | .ok (false, msg) =>
            .error (.perr ⟨.validation, i, msg.getD (""), Option.none⟩)

/-- `ParseInput.parse`: walk items, indices, and arguments in lockstep; a
wrapper with `parse=False` is appended unchanged (still wrapped);
otherwise the item is applied to the underlying value and any exception it
raises is re-raised as `ParsingError(index, str(e))` with no level. -/
def parseArgs : List (PyVal → Except PyErr PyVal) → Nat → List PyArg →
    Except PyExc (List PyArg)
  | [], _, _ => .ok []
  | _ :: _, _, [] => .ok []
  | f :: fs, i, a :: rest =>
      if a.parseFlag = false then
        match parseArgs fs (i + 1) rest with
        | .error e => .error e
        | .ok out => .ok (a :: out)
      else
        match f a.val with
        | .error e => .error (.perr ⟨.parsing, i, e.msg, Option.none⟩)
        | .ok v =>
            match parseArgs fs (i + 1) rest with
            | .error e => .error e
            | .ok out => .ok (.plain v :: out)

/-- A processing stage: `ValidateInput` (holding per-position validators)
or `ParseInput` (holding per-position parsing callables). -/
inductive Processor where
  | validateInput (validators : List Validator)
  | parseInput (items : List (PyVal → Except PyErr PyVal))

/-- `ValidateInput.__init__` replaces every configured validator with its
simplified form. -/
def mkValidateInput (items : List Validator) : Processor :=
  .validateInput (simplifyList items)

/-- `Processor.process_input` for each stage kind: both first raise
`ValueError` on an arity mismatch; a validating stage validates and
returns the arguments unchanged, a parsing stage returns the parsed
replacements. -/
def Processor.process_input : Processor → List PyArg → Except PyExc (List PyArg)
  | .validateInput vs, args =>
      if vs.length ≠ args.length then .error (.other ("ValueError"))
      else
        match validateArgs vs 0 args with
        | .error e => .error e
        | .ok _ => .ok args
  | .parseInput items, args =>
      if items.length ≠ args.length then .error (.other ("ValueError"))
      else parseArgs items 0 args

/-- Running a list of stages in the given order, threading the argument
tuple through, with no level bookkeeping (used to state order facts). -/
def chainRun : List Processor → List PyArg → Except PyExc (List PyArg)
  | [], args => .ok args
  | p :: ps, args =>
      match p.process_input args with
      | .error e => .error e
      | .ok args2 => chainRun ps args2

/-- The loop body of `ProcessorBundle.process_input`: `n` is
`len(self.processors)`; the stage list received here is already reversed;
`level` counts from 0. A caught `ParsingError`/`ValidationError` gets
`e.level = level` assigned when `n > 1` before being re-raised; any other
exception propagates untouched. -/
def bundleGo (n : Nat) : Nat → List Processor → List PyArg → Except PyExc (List PyArg)
  | _, [], args => .ok args
  | level, p :: ps, args =>
      match p.process_input args with
      | .error (.perr e) =>
          .error (.perr (if 1 < n then { e with level := some level } else e))
      | .error e => .error e
      | .ok args2 => bundleGo n (level + 1) ps args2

/-- `ProcessorBundle.process_input`: iterate over
`zip(count(start=0), reversed(self.processors))`. -/
def ProcessorBundle.process_input (processors : List Processor)
    (args : List PyArg) : Except PyExc (List PyArg) :=
  bundleGo processors.length 0 processors.reverse args

/-!
Concrete instances used by the claims, and the predicates their general
statements quantify over.
-/

/-- `TypeValidator((int,))` with the default flags, i.e.
`Validator.from_spec(int)`. -/
def intValidator : Validator := .typeValidator [PyType.int] true false

/-- The built-in `str` used as a parsing item. -/
def pyStrFn : PyVal → Except PyErr PyVal := fun v => .ok (.str v.pyStr)

/-- An identity parsing item (a transform that returns its argument). -/
def idParseFn : PyVal → Except PyErr PyVal := fun v => .ok v

/-- The pipeline of spec §8's end-to-end scenario:
`ParsingStage([str, str, str])` appended first, then
`ValidationStage([IsInt, IsInt, IsInt])`. -/
def demoPipeline : List Processor :=
  [Processor.parseInput [pyStrFn, pyStrFn, pyStrFn],
   mkValidateInput [intValidator, intValidator, intValidator]]

/-- The input tuple `(1, 2, 3)`. -/
def demoArgs : List PyArg :=
  [.plain (.int 1), .plain (.int 2), .plain (.int 3)]

/-- The expected output tuple `("1", "2", "3")`. -/
def demoParsed : List PyArg :=
  [.plain (.str ("1")), .plain (.str ("2")), .plain (.str ("3"))]

/-- `RangeValidator(range(0, 10, 1))` with the default `match_types`. -/
def demoRangeValidator : Validator := .rangeValidator ⟨0, 10, 1⟩ true

/-- A user predicate that always returns `False` without raising. -/
def alwaysFalseV : Validator :=
  .userValidator (fun _ => .ok (.bool false)) (some ("always_false"))

/-- A user predicate that always returns `True`. -/
def alwaysTrueV : Validator :=
  .userValidator (fun _ => .ok (.bool true)) (some ("always_true"))

/-- A user predicate that always raises. -/
def explodingV : Validator :=
  .userValidator (fun _ => .error ⟨"boom"⟩) (some ("exploding"))

/-- `ValueValidator((0, 2, 4), match_types=False)`. -/
def badValueValidator : Validator :=
  .valueValidator [.int 0, .int 2, .int 4] false

/-- The observable outcome of `Validator.check` coerced to a truth value:
`none` when `check` raises, `some b` when the returned value has
truthiness `b`. -/
def checkOutcome (v : Validator) (arg : PyVal) : Option Bool :=
  match v.check arg with
  | .error _ => Option.none
  | .ok r => some r.truthy

/-- A position the validating loop moves past: the argument is a wrapper
opting out of validation, or the validator call reports valid. -/
def stagePasses (v : Validator) (a : PyArg) : Prop :=
  a.validateFlag = false ∨ ∃ m, v.call a.val = .ok (true, m)

/-- The expression `placeholder * 2 + 1`, built through the operator
methods. -/
def exprMul2Add1 : Operation :=
  Operation.addE (Operation.mulE Operation.identity (Operand.lit (.int 2)))
    (Operand.lit (.int 1))

/-!
Theorems. The claim theorems are stated over the embedded definitions
above; auxiliary lemmas precede them.
-/

/-- Claim C4: building an expression from the placeholder never applies an
operator — the operator methods return the syntactic `BinaryOperation`
node with the operands as children (raw operands promoted to `Constant`),
so construction produces an AST, not a result; calling the built
expression evaluates the tree bottom-up with the input substituted for the
placeholder, and in particular `placeholder * 2 + 1` maps every integer
`n` to `n * 2 + 1`, hence `3` to `7` and `4` to `9`. -/
theorem expression_build_and_eval :
    (∀ (op : BinOp) (g : Operation) (h : Operand),
      Operation.mkBinary op g h = Operation.binary op g h.promote) ∧
    exprMul2Add1 =
      Operation.binary BinOp.add
        (Operation.binary BinOp.mul Operation.identity (Operation.const (.int 2)))
        (Operation.const (.int 1)) ∧
    (∀ n : Int, exprMul2Add1.call (.int n) = .ok (.int (n * 2 + 1))) ∧
    exprMul2Add1.call (.int 3) = .ok (.int 7) ∧
    exprMul2Add1.call (.int 4) = .ok (.int 9) := by
  refine ⟨fun op g h => rfl, rfl, fun n => rfl, rfl, rfl⟩

/-- Claim C9: specification resolution is idempotent. `from_spec` returns
an already-built `Validator` unchanged (the `isinstance(obj, Validator)`
branch comes first), so resolving the result of any resolution is the
identity. -/
theorem from_spec_idempotent :
    (∀ v : Validator, Validator.from_spec (Spec.validator v) = v) ∧
    (∀ s : Spec,
      Validator.from_spec (Spec.validator (Validator.from_spec s)) =
        Validator.from_spec s) := by
  exact ⟨fun v => rfl, fun s => rfl⟩

/-- Claim C10 (code bug): `simplify` does not preserve validation
semantics. `ValueValidator((0, 2, 4), match_types=False)` accepts the
argument `False` (`False == 0` and types need not match), but its
simplification is `RangeValidator(range(0, 5, 2))` built with the default
`match_types=True`, which rejects `False`; a `ValidateInput` stage
configured with this validator therefore rejects input that the configured
validator accepts. This contradicts `Validator.simplify`'s documented
contract that the returned validator is equivalent. -/
theorem simplify_changes_semantics :
    Validator.call badValueValidator (.bool false) = .ok (true, Option.none) ∧
    Validator.simplify badValueValidator = .rangeValidator ⟨0, 5, 2⟩ true ∧
    Validator.call (Validator.simplify badValueValidator) (.bool false) =
      .ok (false, some ("Value in range(0, 5, 2) expected but got False")) ∧
    Processor.process_input (mkValidateInput [badValueValidator])
        [.plain (.bool false)] =
      .error (.perr ⟨ErrKind.validation, 0,
        ("Value in range(0, 5, 2) expected but got False"), Option.none⟩) := by
  exact ⟨rfl, rfl, rfl, rfl⟩

/-- Claim C7, counterexample: a user function that raises an exception
with an empty message yields the empty string as explanation — not the
generic message naming the function, as the claim states. -/
theorem user_validator_empty_message_cex :
    userCall (fun _ => .error ⟨""⟩) (some ("f")) (.int 0) = (false, some ("")) ∧
    userErrorMessage (some ("f")) = "Expression f evaluated to False" ∧
    (("" : String) ≠ userErrorMessage (some ("f"))) := by
  refine ⟨rfl, rfl, ?_⟩
  intro h
  simp [userErrorMessage] at h

/-- Claim C7, amended: when the wrapped function raises, the outcome is
invalid and the explanation is the raised error's message verbatim (even
when that message is empty); the generic "evaluated to False" message
naming the function is produced only when the function returns a falsy
value without raising. -/
theorem user_validator_raise_behavior
    (f : PyVal → Except PyErr PyVal) (name : Option String) (arg : PyVal) :
    (∀ e : PyErr, f arg = .error e → userCall f name arg = (false, some e.msg)) ∧
    (∀ r : PyVal, f arg = .ok r → r.truthy = false →
      userCall f name arg = (false, some (userErrorMessage name))) := by
  constructor
  · intro e he
    simp [userCall, he]
  · intro r hr htr
    simp [userCall, hr, htr]

/-- Claim C7, witness for the amended theorem at a concrete raising
function and a concrete falsy-returning function. -/
theorem user_validator_raise_behavior_witness :
    userCall (fun _ => .error ⟨"boom"⟩) (some ("g")) (.int 1) =
      (false, some ("boom")) ∧
    userCall (fun _ => .ok (.int 0)) (some ("g")) (.int 1) =
      (false, some (userErrorMessage (some ("g")))) := by
  constructor
  · exact (user_validator_raise_behavior (fun _ => .error ⟨"boom"⟩)
      (some ("g")) (.int 1)).1 ⟨"boom"⟩ rfl
  · exact (user_validator_raise_behavior (fun _ => .ok (.int 0))
      (some ("g")) (.int 1)).2 (.int 0) rfl rfl

/-- Claim C5: `TypeValidator.check(v)` tests exact membership of
`type(v)` in the configured type set when `check_subclasses` is false or
when `v`'s exact runtime type is `bool` and `check_bool_subclasses` is
false, and tests `isinstance` against the set otherwise; in particular
`TypeValidator((int,))` with the default flags rejects `True` and accepts
`1`. -/
theorem typeValidator_check_mechanism :
    (∀ (types : List PyType) (cs cb : Bool) (arg : PyVal),
      Validator.check (.typeValidator types cs cb) arg =
        .ok (.bool (if cs = false ∨ (arg.type = PyType.bool ∧ cb = false)
                    then types.contains arg.type
                    else types.any (fun t => arg.type.isSubclass t)))) ∧
    Validator.check intValidator (.bool true) = .ok (.bool false) ∧
    Validator.check intValidator (.int 1) = .ok (.bool true) := by
  refine ⟨?_, rfl, rfl⟩
  intro types cs cb arg
  simp only [Validator.check]
  congr 2
  by_cases h1 : cs <;> by_cases h2 : cb <;> by_cases h3 : arg.type = PyType.bool <;>
    simp [h1, h2, h3]

/-- Claim C6: `RangeValidator(range(0, 10, 1))` with the default
`match_types` accepts a value iff it is of exact integer type and lies in
`[0, 10)`; in particular it accepts `0` and `9` and rejects `-1`, `10`,
and `9.5`. -/
theorem rangeValidator_equiv :
    (∀ v : PyVal, (Validator.check demoRangeValidator v = .ok (.bool true) ↔
      ∃ n : Int, v = .int n ∧ 0 ≤ n ∧ n < 10)) ∧
    Validator.check demoRangeValidator (.int 0) = .ok (.bool true) ∧
    Validator.check demoRangeValidator (.int 9) = .ok (.bool true) ∧
    Validator.check demoRangeValidator (.int (-1)) = .ok (.bool false) ∧
    Validator.check demoRangeValidator (.int 10) = .ok (.bool false) ∧
    Validator.check demoRangeValidator (.float 19 2) = .ok (.bool false) := by
  refine ⟨?_, rfl, rfl, rfl, rfl, rfl⟩
  intro v
  cases v with
  | int n =>
      simp [demoRangeValidator, Validator.check, PyRange.containsVal,
        PyRange.containsInt, PyVal.type, Int.emod_one]
  | bool b => simp [demoRangeValidator, Validator.check, PyVal.type]
  | str s => simp [demoRangeValidator, Validator.check, PyVal.type]
  | float num den => simp [demoRangeValidator, Validator.check, PyVal.type]
  | none => simp [demoRangeValidator, Validator.check, PyVal.type]

/-- Claim C8: in a `ComposedValidator` (disjunction), when every member
before some position rejects the argument without raising and the member
at that position accepts it, `check` returns valid — whatever the members
after that position are (they are never invoked: a later raising member
cannot affect the result). In particular
`[alwaysFalse, alwaysTrue, exploding]` checks valid for every argument. -/
theorem disjunction_short_circuit
    (pre suf : List Validator) (v : Validator) (x : PyVal)
    (hpre : ∀ u ∈ pre, checkOutcome u x = some false)
    (hv : checkOutcome v x = some true) :
    Validator.check (.composedValidator (pre ++ v :: suf)) x = .ok (.bool true) ∧
    Validator.check (.composedValidator [alwaysFalseV, alwaysTrueV, explodingV]) x =
      .ok (.bool true) := by
  refine ⟨?_, rfl⟩
  induction pre with
  | nil =>
      unfold checkOutcome at hv
      cases hc : v.check x with
      | error e => rw [hc] at hv; simp at hv
      | ok r =>
          rw [hc] at hv
          simp only [Option.some.injEq] at hv
          simp [Validator.check, checkAny, hc, hv]
  | cons u us ih =>
      have hu := hpre u (by simp)
      have hrest : ∀ w ∈ us, checkOutcome w x = some false :=
        fun w hw => hpre w (by simp [hw])
      unfold checkOutcome at hu
      cases hc : u.check x with
      | error e => rw [hc] at hu; simp at hu
      | ok r =>
          rw [hc] at hu
          simp only [Option.some.injEq] at hu
          have := ih hrest
          simp only [Validator.check] at this ⊢
          simpa [checkAny, hc, hu] using this

/-- Claim C8, witness: the spec's scenario, with the exploding member
last. -/
theorem disjunction_short_circuit_witness :
    Validator.check (.composedValidator
        ([alwaysFalseV] ++ alwaysTrueV :: [explodingV])) (.int 0) =
      .ok (.bool true) :=
  (disjunction_short_circuit [alwaysFalseV] [explodingV] alwaysTrueV (.int 0)
    (by intro u hu; simp only [List.mem_singleton] at hu; subst hu; rfl) rfl).1

/-- Auxiliary: the validating loop walks past positions that are skipped
or valid, consuming their indices. -/
theorem validateArgs_append
    (vpre : List Validator) (apre : List PyArg)
    (hpre : List.Forall₂ stagePasses vpre apre)
    (rest : List Validator) (arest : List PyArg) (i : Nat) :
    validateArgs (vpre ++ rest) i (apre ++ arest) =
      validateArgs rest (i + vpre.length) arest := by
  induction hpre generalizing i with
  | nil => simp
  | cons hp hps ih =>
      rename_i v a l1 l2
      simp only [List.cons_append, List.length_cons, validateArgs, List.append_eq]
      by_cases hf : a.validateFlag = false
      · simp only [hf, if_true, ite_true]
        rw [ih (i + 1)]
        congr 1
        omega
      · rcases hp with hflag | ⟨m, hcall⟩
        · exact absurd hflag hf
        · simp only [hf, ite_false, hcall, ite_self]
          rw [ih (i + 1)]
          congr 1
          omega

/-- Claim C3: in a validating stage, positions are checked in order and
the first failing non-skipped position aborts the stage with a
`ValidationError` carrying that 0-based position and no level — whatever
the validators and arguments at later positions are (they are never
evaluated); in particular `[IsInt, IsInt, IsInt]` on `(1, "x", 3)` raises
with position 1. -/
theorem validate_first_failure
    (vpre vsuf : List Validator) (v : Validator)
    (apre asuf : List PyArg) (a : PyArg) (m : Option String)
    (hpre : List.Forall₂ stagePasses vpre apre)
    (ha : a.validateFlag = true)
    (hfail : v.call a.val = .ok (false, m)) :
    validateArgs (vpre ++ v :: vsuf) 0 (apre ++ a :: asuf) =
      .error (.perr ⟨ErrKind.validation, vpre.length, m.getD (""), Option.none⟩) ∧
    validateArgs [intValidator, intValidator, intValidator] 0
        [.plain (.int 1), .plain (.str ("x")), .plain (.int 3)] =
      .error (.perr ⟨ErrKind.validation, 1, ("Type int expected but got str"),
        Option.none⟩) := by
  refine ⟨?_, rfl⟩
  rw [validateArgs_append vpre apre hpre (v :: vsuf) (a :: asuf) 0]
  simp [validateArgs, ha, hfail]

/-- Claim C3, witness: the concrete three-position stage of the claim,
decomposed around its failing middle position. -/
theorem validate_first_failure_witness :
    validateArgs ([intValidator] ++ intValidator :: [intValidator]) 0
        ([PyArg.plain (.int 1)] ++ PyArg.plain (.str ("x")) :: [PyArg.plain (.int 3)]) =
      .error (.perr ⟨ErrKind.validation, 1, ("Type int expected but got str"),
        Option.none⟩) := by
  have h := (validate_first_failure [intValidator] [intValidator] intValidator
      [PyArg.plain (.int 1)] [PyArg.plain (.int 3)] (PyArg.plain (.str ("x")))
      (some ("Type int expected but got str"))
      (List.Forall₂.cons (Or.inr ⟨Option.none, rfl⟩) List.Forall₂.nil) rfl rfl).1
  simpa using h

/-- Auxiliary: a successful chain run is what `bundleGo` computes,
regardless of the stage count and level counter. -/
theorem chainRun_ok_bundleGo (ps : List Processor) (args out : List PyArg)
    (n level : Nat) (h : chainRun ps args = .ok out) :
    bundleGo n level ps args = .ok out := by
  induction ps generalizing args level with
  | nil => simpa [chainRun, bundleGo] using h
  | cons p ps ih =>
      simp only [chainRun] at h
      cases hp : p.process_input args with
      | error e => rw [hp] at h; simp at h
      | ok args2 =>
          rw [hp] at h
          simp only [bundleGo, hp]
          exact ih args2 (level + 1) h

/-- Claim C2: `process_input` applies the pipeline's stages in reverse
insertion order — the result is the left-to-right chain run of the
reversed stage list — and in particular the pipeline built by appending a
parsing stage `[str, str, str]` and then a validating stage
`[IsInt, IsInt, IsInt]` processes `(1, 2, 3)` by validating first, then
parsing, returning `("1", "2", "3")`. -/
theorem process_reverse_order (ps : List Processor) (args out : List PyArg)
    (h : chainRun ps.reverse args = .ok out) :
    ProcessorBundle.process_input ps args = .ok out ∧
    ProcessorBundle.process_input demoPipeline demoArgs = .ok demoParsed :=
  ⟨chainRun_ok_bundleGo ps.reverse args out ps.length 0 h, rfl⟩

/-- Claim C2, witness: the end-to-end scenario itself. -/
theorem process_reverse_order_witness :
    ProcessorBundle.process_input demoPipeline demoArgs = .ok demoParsed :=
  (process_reverse_order demoPipeline demoArgs demoParsed rfl).1

/-- Auxiliary: a `ValidationError` raised inside the validating loop
carries no level. -/
theorem validateArgs_perr_level (vs : List Validator) (i : Nat)
    (as' : List PyArg) (e : PErr)
    (h : validateArgs vs i as' = .error (.perr e)) : e.level = Option.none := by
  induction vs generalizing i as' with
  | nil => simp [validateArgs] at h
  | cons v vs ih =>
      cases as' with
      | nil => simp [validateArgs] at h
      | cons a rest =>
          simp only [validateArgs] at h
          split at h
          · exact ih _ _ h
          · split at h
            · simp at h
            · exact ih _ _ h
            · injection h with h
              injection h with h
              subst h
              rfl

/-- Auxiliary: a `ParsingError` raised inside the parsing loop carries no
level. -/
theorem parseArgs_perr_level (fs : List (PyVal → Except PyErr PyVal)) (i : Nat)
    (as' : List PyArg) (e : PErr)
    (h : parseArgs fs i as' = .error (.perr e)) : e.level = Option.none := by
  induction fs generalizing i as' with
  | nil => simp [parseArgs] at h
  | cons f fs ih =>
      cases as' with
      | nil => simp [parseArgs] at h
      | cons a rest =>
          simp only [parseArgs] at h
          split at h
          · split at h
            · rename_i e2 hr
              injection h with h
              subst h
              exact ih _ _ hr
            · simp at h
          · split at h
            · injection h with h
              injection h with h
              subst h
              rfl
            · split at h
              · rename_i e2 hr
                injection h with h
                subst h
                exact ih _ _ hr
              · simp at h

/-- Auxiliary: any `ParsingError`/`ValidationError` escaping a single
stage carries no level (levels are assigned only by the bundle). -/
theorem stage_perr_level_none (p : Processor) (args : List PyArg) (e : PErr)
    (h : p.process_input args = .error (.perr e)) : e.level = Option.none := by
  cases p with
  | validateInput vs =>
      simp only [Processor.process_input] at h
      split at h
      · simp at h
      · split at h
        · rename_i e2 hr
          injection h with h
          subst h
          exact validateArgs_perr_level _ _ _ _ hr
        · simp at h
  | parseInput fs =>
      simp only [Processor.process_input] at h
      split at h
      · simp at h
      · exact parseArgs_perr_level _ _ _ _ h

/-- Auxiliary: the bundle loop runs an initial successful segment of the
(already reversed) stage list, advancing the level counter by its
length. -/
theorem bundleGo_append (n : Nat) (pre rest : List Processor)
    (args args' : List PyArg) (level : Nat)
    (h : chainRun pre args = .ok args') :
    bundleGo n level (pre ++ rest) args = bundleGo n (level + pre.length) rest args' := by
  induction pre generalizing args level with
  | nil =>
      simp only [chainRun] at h
      injection h with h
      subst h
      simp
  | cons p ps ih =>
      simp only [chainRun] at h
      cases hp : p.process_input args with
      | error e => rw [hp] at h; simp at h
      | ok args2 =>
          rw [hp] at h
          simp only [List.cons_append, List.length_cons, List.append_eq, bundleGo, hp]
          rw [ih args2 (level + 1) h]
          congr 1
          omega

/-- Claim C1: when a stage raises a `ValidationError`/`ParsingError`
during `process_input`, the pipeline re-raises it; with more than one
stage the error gets the failing stage's position counted from the
innermost (most recently appended) stage outward — stored 0-based in the
`level` attribute and reported 1-based by `__str__` (`displayedLevel`);
with exactly one stage it is re-raised unchanged, carrying no level.
Here `rpre` are the stages that run before the failing stage `p` (those
closer to the innermost end), so `p`'s 1-based position from the
innermost stage is `rpre.length + 1`. -/
theorem bundle_level_attribution
    (rpre rpost : List Processor) (p : Processor)
    (args args' : List PyArg) (e : PErr)
    (hpre : chainRun rpre args = .ok args')
    (hfail : p.process_input args' = .error (.perr e)) :
    ProcessorBundle.process_input ((rpre ++ p :: rpost).reverse) args =
      .error (.perr (if 1 < rpre.length + rpost.length + 1
                     then { e with level := some rpre.length } else e)) ∧
    e.level = Option.none ∧
    PErr.displayedLevel { e with level := some rpre.length } =
      some (rpre.length + 1) := by
  refine ⟨?_, stage_perr_level_none p args' e hfail,
    by simp [PErr.displayedLevel]⟩
  unfold ProcessorBundle.process_input
  rw [List.reverse_reverse]
  have hn : ((rpre ++ p :: rpost).reverse).length = rpre.length + rpost.length + 1 := by
    simp [List.length_reverse, List.length_append]
    omega
  rw [hn]
  rw [bundleGo_append _ rpre (p :: rpost) args args' 0 hpre]
  simp only [Nat.zero_add, bundleGo, hfail]

/-- Claim C1, witness: a two-stage pipeline whose innermost (last
appended) stage succeeds and whose outer stage fails; the re-raised error
carries displayed level 2 (attribute 1). -/
theorem bundle_level_attribution_witness :
    ProcessorBundle.process_input
        (([Processor.parseInput [idParseFn]] ++
          Processor.validateInput [intValidator] :: []).reverse)
        [PyArg.plain (.str ("a"))] =
      .error (.perr ⟨ErrKind.validation, 0, ("Type int expected but got str"),
        some 1⟩) := by
  have h := (bundle_level_attribution [Processor.parseInput [idParseFn]] []
      (Processor.validateInput [intValidator])
      [PyArg.plain (.str ("a"))] [PyArg.plain (.str ("a"))]
      ⟨ErrKind.validation, 0, ("Type int expected but got str"), Option.none⟩
      rfl rfl).1
  simpa using h
